import Mathlib

/-!
Formal model of the in-memory movie-catalog data layer (`src/app/lib/data.ts`).

The TypeScript module keeps two module-level mutable arrays, `movies` and
`users`, and exposes synchronous CRUD helpers over them.  We embed that store
as an explicit state record `DB` threaded through every operation: a mutating
JS function of type `(args) => R` becomes a Lean function `DB → args → DB × R`.
JS numbers are modelled as exact rationals (`ℚ`) for rating values and
averages, and as `ℕ` for counters; JS strings become Lean `String`s, and
`undefined`/`null` results become `Option`.
-/

namespace MovieCatalog

/-- Rating entry `{userId, rating, review?}` stored inside a movie. -/
structure Rating where
  userId : String
  rating : ℚ
  review : Option String
deriving DecidableEq

/-- Movie entity, mirroring the `Movie` interface of `data.ts`. -/
structure Movie where
  id : String
  title : String
  description : String
  imageUrl : String
  releaseDate : String
  ratings : List Rating
  averageRating : ℚ
  totalRatings : ℕ
deriving DecidableEq

/-- User role, `'admin' | 'user'` in the source. -/
inductive Role where
  | admin : Role
  | member : Role
deriving DecidableEq

/-- User entity, mirroring the `User` interface of `data.ts`. -/
structure User where
  id : String
  email : String
  name : String
  password : String
  role : Role
  favorites : List String
  createdAt : String
deriving DecidableEq

/-- The whole mutable store: the module-level `movies` and `users` arrays. -/
structure DB where
  movies : List Movie
  users : List User
deriving DecidableEq

/-- Replaces the first element satisfying `p` by its image under `f`.  This is
how a JS `array.find(...)` followed by in-place mutation of the found object
acts on the array. -/
def updateFirst (p : α → Bool) (f : α → α) : List α → List α
  | [] => []
  | x :: xs => if p x then f x :: xs else x :: updateFirst p f xs

/-- Removes the first element satisfying `p`; models
`array.splice(array.findIndex(p), 1)`. -/
def eraseFirstP (p : α → Bool) : List α → List α
  | [] => []
  | x :: xs => if p x then xs else x :: eraseFirstP p xs

/-- Sum of the rating values of a ratings list; models
`ratings.reduce((sum, r) => sum + r.rating, 0)`. -/
def ratingSum (rs : List Rating) : ℚ :=
  (rs.map (fun r => r.rating)).sum

/-- Source `getMovies`. -/
def getMovies (db : DB) : List Movie :=
  db.movies

/-- Source `getMovieById`: `movies.find(movie => movie.id === id)`. -/
def getMovieById (db : DB) (id : String) : Option Movie :=
  db.movies.find? (fun m => m.id == id)

/-- Caller-supplied fields of `addMovie` (`Omit<Movie, id | ratings | ...>`). -/
structure NewMovieFields where
  title : String
  description : String
  imageUrl : String
  releaseDate : String
deriving DecidableEq

/-- Source `addMovie`: builds a record with id `(movies.length + 1).toString()`,
empty ratings, zero aggregates, pushes it, and returns it. -/
def addMovie (db : DB) (f : NewMovieFields) : DB × Movie :=
  let newMovie : Movie :=
    { id := Nat.repr (db.movies.length + 1)
      title := f.title
      description := f.description
      imageUrl := f.imageUrl
      releaseDate := f.releaseDate
      ratings := []
      averageRating := 0
      totalRatings := 0 }
  ({ db with movies := db.movies ++ [newMovie] }, newMovie)

/-- Source `getUserByEmail`. -/
def getUserByEmail (db : DB) (email : String) : Option User :=
  db.users.find? (fun u => u.email == email)

/-- Caller-supplied fields of `addUser`. -/
structure NewUserFields where
  email : String
  name : String
  password : String
deriving DecidableEq

/-- Source `addUser`.  The wall-clock timestamp `new Date().toISOString()` is
an external input of the model, passed as `now`. -/
def addUser (db : DB) (f : NewUserFields) (now : String) : DB × User :=
  let newUser : User :=
    { id := Nat.repr (db.users.length + 1)
      email := f.email
      name := f.name
      password := f.password
      role := Role.member
      favorites := []
      createdAt := now }
  ({ db with users := db.users ++ [newUser] }, newUser)

/-- Effect of `user.favorites.push(movieId)` on a user object. -/
def favAdded (x : User) (movieId : String) : User :=
  { x with favorites := x.favorites ++ [movieId] }

/-- Effect of `user.favorites = user.favorites.filter(id => id !== movieId)`
on a user object (used both by `removeFromFavorites` and by `deleteMovie`'s
cascade, which filters with the same inequality test). -/
def favRemoved (x : User) (movieId : String) : User :=
  { x with favorites := x.favorites.filter (fun i => i != movieId) }

/-- Source `addToFavorites`: finds the user, fails when unknown or when the
movie is already favorited, otherwise pushes the id onto that user's
`favorites`. -/
def addToFavorites (db : DB) (userId movieId : String) : DB × Bool :=
  match db.users.find? (fun u => u.id == userId) with
  | none => (db, false)
  | some u =>
    if u.favorites.contains movieId then (db, false)
    else
      ({ db with
          users := updateFirst (fun x => x.id == userId) (fun x => favAdded x movieId) db.users },
        true)

/-- Source `removeFromFavorites`: fails only when the user is unknown;
otherwise filters the id out of that user's `favorites`. -/
def removeFromFavorites (db : DB) (userId movieId : String) : DB × Bool :=
  match db.users.find? (fun u => u.id == userId) with
  | none => (db, false)
  | some _ =>
    ({ db with
        users := updateFirst (fun x => x.id == userId) (fun x => favRemoved x movieId) db.users },
      true)

/-- Source `getFavoriteMovies`: `movies.filter(m => user.favorites.includes(m.id))`,
or `[]` when the user is unknown. -/
def getFavoriteMovies (db : DB) (userId : String) : List Movie :=
  match db.users.find? (fun u => u.id == userId) with
  | none => []
  | some u => db.movies.filter (fun m => u.favorites.contains m.id)

/-- Source `isMovieFavorited`. -/
def isMovieFavorited (db : DB) (userId movieId : String) : Bool :=
  match db.users.find? (fun u => u.id == userId) with
  | none => false
  | some u => u.favorites.contains movieId

/-- Effect of one `addRating` call on the found movie object: drop any
previous rating by the same user, append the new one, recompute
`totalRatings` and `averageRating`. -/
def ratedMovie (m : Movie) (userId : String) (rating : ℚ) (review : Option String) : Movie :=
  let newRatings := m.ratings.filter (fun r => r.userId != userId) ++
    [{ userId := userId, rating := rating, review := review }]
  { m with
      ratings := newRatings
      totalRatings := newRatings.length
      averageRating := ratingSum newRatings / (newRatings.length : ℚ) }

/-- Source `addRating`: finds the movie (otherwise `null`) and applies
`ratedMovie` to it in place. -/
def addRating (db : DB) (movieId userId : String) (rating : ℚ) (review : Option String) :
    DB × Option Movie :=
  match db.movies.find? (fun m => m.id == movieId) with
  | none => (db, none)
  | some m =>
    ({ db with
        movies := updateFirst (fun x => x.id == movieId)
          (fun _ => ratedMovie m userId rating review) db.movies },
      some (ratedMovie m userId rating review))

/-- Source `getUserRating`. -/
def getUserRating (db : DB) (movieId userId : String) : Option (ℚ × Option String) :=
  match db.movies.find? (fun m => m.id == movieId) with
  | none => none
  | some m =>
    match m.ratings.find? (fun r => r.userId == userId) with
    | none => none
    | some r => some (r.rating, r.review)

/-- Partial update object of `updateMovie`
(`Partial<Omit<Movie, id | ratings | averageRating | totalRatings>>`). -/
structure MovieUpdates where
  title : Option String
  description : Option String
  imageUrl : Option String
  releaseDate : Option String
deriving DecidableEq

/-- Spread-merge `{ ...movie, ...updates }` restricted to the updatable keys. -/
def applyUpdates (m : Movie) (u : MovieUpdates) : Movie :=
  { m with
      title := u.title.getD m.title
      description := u.description.getD m.description
      imageUrl := u.imageUrl.getD m.imageUrl
      releaseDate := u.releaseDate.getD m.releaseDate }

/-- Source `updateMovie`: `null` when the id is unknown, otherwise replaces the
movie at the found index by the merged record and returns it. -/
def updateMovie (db : DB) (id : String) (updates : MovieUpdates) : DB × Option Movie :=
  match db.movies.find? (fun m => m.id == id) with
  | none => (db, none)
  | some m =>
    ({ db with
        movies := updateFirst (fun x => x.id == id) (fun x => applyUpdates x updates) db.movies },
      some (applyUpdates m updates))

/-- Source `deleteMovie`: `false` when the id is unknown; otherwise removes the
movie at the found index and filters the id out of every user's favorites. -/
def deleteMovie (db : DB) (id : String) : DB × Bool :=
  match db.movies.find? (fun m => m.id == id) with
  | none => (db, false)
  | some _ =>
    ({ movies := eraseFirstP (fun m => m.id == id) db.movies
       users := db.users.map (fun u => favRemoved u id) },
      true)

/-- Modelled platform primitive: `new Date(s).getFullYear()` applied to the ISO
`YYYY-MM-DD` strings this store keeps in `releaseDate`; it reads the leading
4-digit year as a decimal number. -/
def yearOf (s : String) : Int :=
  ((s.data.take 4).foldl (fun n c => 10 * n + (c.toNat - 48)) 0 : ℕ)

/-- Source `searchMovies` (case sensitivity of `toLowerCase` is modelled with
`String.toLower`). -/
def searchMovies (db : DB) (query : String) : List Movie :=
  if query.trim == "" then db.movies
  else
    let searchTerm := query.toLower.trim
    db.movies.filter (fun m =>
      m.title.toLower.containsSubstr searchTerm || m.description.toLower.containsSubstr searchTerm)

/-- Source `filterMoviesByYear`.  The JS guard `if (!year) return movies` is
true for `null` and for the number `0`, so both yield the whole collection. -/
def filterMoviesByYear (db : DB) (year : Option Int) : List Movie :=
  match year with
  | none => db.movies
  | some y =>
    if y == 0 then db.movies
    else db.movies.filter (fun m => yearOf m.releaseDate == y)

/-- Deduplication keeping first occurrences, the iteration order of a JS
`new Set(array)`. -/
def dedupFirst : List Int → List Int
  | [] => []
  | x :: xs => x :: dedupFirst (xs.filter (fun y => y ≠ x))
termination_by l => l.length
decreasing_by
  exact Nat.lt_succ_of_le (List.length_filter_le _ _)

/-- Source `getMovieYears`:
`Array.from(new Set(years)).sort((a, b) => b - a)` — distinct years sorted
descending.  The comparator-based JS sort is modelled by sorting with `≥`. -/
def getMovieYears (db : DB) : List Int :=
  List.insertionSort (fun a b => a ≥ b)
    (dedupFirst (db.movies.map (fun m => yearOf m.releaseDate)))

/-- Seed movie 1 of `data.ts`. -/
def matrixMovie : Movie :=
  { id := "1"
    title := "The Matrix"
    description := "A computer programmer is led to fight an underground war against powerful computers who have constructed his entire reality with a computer program."
    imageUrl := "https://image.tmdb.org/t/p/w500/f89U3ADr1oiB1s9GkdPOEpXUk5H.jpg"
    releaseDate := "1999-03-31"
    ratings := []
    averageRating := 0
    totalRatings := 0 }

/-- Seed movie 2 of `data.ts`. -/
def inceptionMovie : Movie :=
  { id := "2"
    title := "Inception"
    description := "A thief who steals corporate secrets through the use of dream-sharing technology is given the inverse task of planting an idea into the mind of a C.E.O."
    imageUrl := "https://image.tmdb.org/t/p/w500/9gk7adHYeDvHkCSEqAvQNLV5Uge.jpg"
    releaseDate := "2010-07-16"
    ratings := []
    averageRating := 0
    totalRatings := 0 }

/-- Seed movie 3 of `data.ts`. -/
def interstellarMovie : Movie :=
  { id := "3"
    title := "Interstellar"
    description := "A team of explorers travel through a wormhole in space in an attempt to ensure humanity\x27s survival."
    imageUrl := "https://image.tmdb.org/t/p/w500/gEU2QniE6E77NI6lCU6MxlNBvIx.jpg"
    releaseDate := "2014-11-07"
    ratings := []
    averageRating := 0
    totalRatings := 0 }

/-- Seed movie 4 of `data.ts`. -/
def darkKnightMovie : Movie :=
  { id := "4"
    title := "The Dark Knight"
    description := "When the menace known as the Joker wreaks havoc and chaos on the people of Gotham, Batman must accept one of the greatest psychological and physical tests."
    imageUrl := "https://image.tmdb.org/t/p/w500/qJ2tW6WMUDux911r6m7haRef0WH.jpg"
    releaseDate := "2008-07-18"
    ratings := []
    averageRating := 0
    totalRatings := 0 }

/-- Seed movie 5 of `data.ts`. -/
def pulpFictionMovie : Movie :=
  { id := "5"
    title := "Pulp Fiction"
    description := "The lives of two mob hitmen, a boxer, a gangster and his wife, and a pair of diner bandits intertwine in four tales of violence and redemption."
    imageUrl := "https://image.tmdb.org/t/p/w500/d5iIlFn5s0ImszYzBPb8JPIfbXD.jpg"
    releaseDate := "1994-10-14"
    ratings := []
    averageRating := 0
    totalRatings := 0 }

/-- Seed movie 6 of `data.ts`. -/
def fightClubMovie : Movie :=
  { id := "6"
    title := "Fight Club"
    description := "An insomniac office worker and a devil-may-care soap maker form an underground fight club that evolves into an anarchist organization."
    imageUrl := "https://image.tmdb.org/t/p/w500/pB8BM7pdSp6B6Ih7QZ4DrQ3PmJK.jpg"
    releaseDate := "1999-10-15"
    ratings := []
    averageRating := 0
    totalRatings := 0 }

/-- Seed catalog of `data.ts`: the six movies the module-level `movies` array
starts with. -/
def seedMovies : List Movie :=
  [matrixMovie, inceptionMovie, interstellarMovie, darkKnightMovie, pulpFictionMovie,
    fightClubMovie]

/-- Seed admin account of `data.ts`. -/
def adminUser : User :=
  { id := "1"
    email := "admin@movieapp.com"
    name := "Movie Admin"
    password := "$2b$10$Vp41WiGzXbNY2cAl7rqC/u46K126o1uOhEfUjWR83.uzlL8ExBvIq"
    role := Role.admin
    favorites := []
    createdAt := "2024-01-01T00:00:00.000Z" }

/-- Seed demo account of `data.ts`. -/
def demoUser : User :=
  { id := "2"
    email := "demo@example.com"
    name := "Demo User"
    password := "$2b$10$Vp41WiGzXbNY2cAl7rqC/u46K126o1uOhEfUjWR83.uzlL8ExBvIq"
    role := Role.member
    favorites := []
    createdAt := "2024-01-01T00:00:00.000Z" }

/-- Seed accounts of `data.ts`: the two demo users. -/
def seedUsers : List User :=
  [adminUser, demoUser]

/-- The state the module starts in. -/
def initialDB : DB :=
  { movies := seedMovies, users := seedUsers }

/-- State after the admin favorites movie `"1"`; used to exercise favorites
properties on concrete data. -/
def favDB : DB :=
  (addToFavorites initialDB "1" "1").1

/-- One mutation step of the store: any call of one of its mutating
operations, with arbitrary arguments. -/
inductive Step : DB → DB → Prop
  | stepAddMovie (db : DB) (f : NewMovieFields) : Step db (addMovie db f).1
  | stepAddUser (db : DB) (f : NewUserFields) (now : String) : Step db (addUser db f now).1
  | stepAddToFavorites (db : DB) (userId movieId : String) :
      Step db (addToFavorites db userId movieId).1
  | stepRemoveFromFavorites (db : DB) (userId movieId : String) :
      Step db (removeFromFavorites db userId movieId).1
  | stepAddRating (db : DB) (movieId userId : String) (rating : ℚ) (review : Option String) :
      Step db (addRating db movieId userId rating review).1
  | stepUpdateMovie (db : DB) (id : String) (updates : MovieUpdates) :
      Step db (updateMovie db id updates).1
  | stepDeleteMovie (db : DB) (id : String) : Step db (deleteMovie db id).1

/-- States reachable from the seed state by any sequence of operations. -/
inductive Reachable : DB → Prop
  | init : Reachable initialDB
  | step {db db' : DB} : Reachable db → Step db db' → Reachable db'

/-- Mutation step in which `addToFavorites` is only invoked with the id of a
movie existing at call time; all other operations are unrestricted. -/
inductive StepChecked : DB → DB → Prop
  | stepAddMovie (db : DB) (f : NewMovieFields) : StepChecked db (addMovie db f).1
  | stepAddUser (db : DB) (f : NewUserFields) (now : String) :
      StepChecked db (addUser db f now).1
  | stepAddToFavorites (db : DB) (userId movieId : String)
      (hm : ∃ m ∈ db.movies, m.id = movieId) :
      StepChecked db (addToFavorites db userId movieId).1
  | stepRemoveFromFavorites (db : DB) (userId movieId : String) :
      StepChecked db (removeFromFavorites db userId movieId).1
  | stepAddRating (db : DB) (movieId userId : String) (rating : ℚ) (review : Option String) :
      StepChecked db (addRating db movieId userId rating review).1
  | stepUpdateMovie (db : DB) (id : String) (updates : MovieUpdates) :
      StepChecked db (updateMovie db id updates).1
  | stepDeleteMovie (db : DB) (id : String) : StepChecked db (deleteMovie db id).1

/-- States reachable when every `addToFavorites` call passes a valid movie id. -/
inductive ReachableChecked : DB → Prop
  | init : ReachableChecked initialDB
  | step {db db' : DB} : ReachableChecked db → StepChecked db db' → ReachableChecked db'

/-- Mutation step excluding `deleteMovie`. -/
inductive StepNoDelete : DB → DB → Prop
  | stepAddMovie (db : DB) (f : NewMovieFields) : StepNoDelete db (addMovie db f).1
  | stepAddUser (db : DB) (f : NewUserFields) (now : String) :
      StepNoDelete db (addUser db f now).1
  | stepAddToFavorites (db : DB) (userId movieId : String) :
      StepNoDelete db (addToFavorites db userId movieId).1
  | stepRemoveFromFavorites (db : DB) (userId movieId : String) :
      StepNoDelete db (removeFromFavorites db userId movieId).1
  | stepAddRating (db : DB) (movieId userId : String) (rating : ℚ) (review : Option String) :
      StepNoDelete db (addRating db movieId userId rating review).1
  | stepUpdateMovie (db : DB) (id : String) (updates : MovieUpdates) :
      StepNoDelete db (updateMovie db id updates).1

/-- States reachable from the seed state without ever deleting a movie. -/
inductive ReachableNoDelete : DB → Prop
  | init : ReachableNoDelete initialDB
  | step {db db' : DB} : ReachableNoDelete db → StepNoDelete db db' → ReachableNoDelete db'

/-- Aggregate consistency of a single movie: `totalRatings` is the length of
`ratings`, and `averageRating` is the mean of the rating values (0 when there
are none). -/
def movieConsistent (m : Movie) : Prop :=
  m.totalRatings = m.ratings.length ∧
  (0 < m.totalRatings → m.averageRating = ratingSum m.ratings / (m.totalRatings : ℚ)) ∧
  (m.totalRatings = 0 → m.averageRating = 0)

/-- Aggregate consistency of every movie in the store. -/
def Consistent (db : DB) : Prop :=
  ∀ m ∈ db.movies, movieConsistent m

/-- No user appears twice in a movie's ratings list. -/
def ratersNodup (m : Movie) : Prop :=
  (m.ratings.map (fun r => r.userId)).Nodup

/-- Every favorited id refers to a movie present in the catalog. -/
def FavsValid (db : DB) : Prop :=
  ∀ u ∈ db.users, ∀ fid ∈ u.favorites, ∃ m ∈ db.movies, m.id = fid

/-- The catalog's ids are exactly the decimal numerals `"1" … "n"` in order,
where `n` is the catalog's size.  This is the shape `addMovie`'s
`length + 1` scheme keeps as long as nothing is deleted. -/
def IdsSeq (db : DB) : Prop :=
  db.movies.map (fun m => m.id) =
    (List.range db.movies.length).map (fun i => Nat.repr (i + 1))

/-- Big-endian decimal digit list of a natural number; a fuel-free restatement
of core's `Nat.toDigitsCore` at base 10. -/
def myDigits (n : ℕ) : List Char :=
  if n / 10 = 0 then [Nat.digitChar (n % 10)]
  else myDigits (n / 10) ++ [Nat.digitChar (n % 10)]
termination_by n
decreasing_by
  refine Nat.div_lt_self (Nat.pos_of_ne_zero fun h0 => ?_) (by norm_num)
  exact ‹¬ n / 10 = 0› (by simp [h0])

/-- Numeric value of a decimal digit character. -/
def charVal (c : Char) : ℕ :=
  c.toNat - 48

/-- Value of a big-endian decimal digit string. -/
def digitsVal (l : List Char) : ℕ :=
  l.foldl (fun a c => 10 * a + charVal c) 0

/-- Concrete movie fields used to exercise the operations. -/
def sampleFields : NewMovieFields :=
  { title := "X", description := "ten plus chars", imageUrl := "https://e/i.jpg",
    releaseDate := "2020-01-01" }

/-! List-surgery lemmas for the in-place mutation patterns of the store. -/

theorem mem_updateFirst {p : α → Bool} {f : α → α} {l : List α} {y : α}
    (hy : y ∈ updateFirst p f l) : y ∈ l ∨ ∃ x, x ∈ l ∧ p x = true ∧ y = f x := by
  induction l with
  | nil => simp [updateFirst] at hy
  | cons x xs ih =>
    by_cases hp : p x
    · rw [updateFirst, if_pos hp] at hy
      rcases List.mem_cons.mp hy with hy | hy
      · exact Or.inr ⟨x, List.mem_cons_self x xs, hp, hy⟩
      · exact Or.inl (List.mem_cons_of_mem x hy)
    · rw [updateFirst, if_neg hp] at hy
      rcases List.mem_cons.mp hy with hy | hy
      · exact Or.inl (hy ▸ List.mem_cons_self x xs)
      · rcases ih hy with h | ⟨z, hz, hpz, hyz⟩
        · exact Or.inl (List.mem_cons_of_mem x h)
        · exact Or.inr ⟨z, List.mem_cons_of_mem x hz, hpz, hyz⟩

theorem find?_updateFirst (p : α → Bool) (f : α → α) (l : List α)
    (hf : ∀ x, p x = true → p (f x) = true) :
    (updateFirst p f l).find? p = (l.find? p).map f := by
  induction l with
  | nil => simp [updateFirst]
  | cons x xs ih =>
    by_cases hp : p x
    · simp [updateFirst, if_pos hp, List.find?_cons_of_pos, hp, hf x hp]
    · simp [updateFirst, if_neg hp, List.find?_cons_of_neg, hp, ih]

theorem map_updateFirst {p : α → Bool} {f : α → α} (g : α → β) (l : List α)
    (hf : ∀ x ∈ l, p x = true → g (f x) = g x) :
    (updateFirst p f l).map g = l.map g := by
  induction l with
  | nil => rfl
  | cons x xs ih =>
    by_cases hp : p x
    · simp [updateFirst, if_pos hp, hf x (List.mem_cons_self x xs) hp]
    · simp only [updateFirst, if_neg hp, List.map_cons]
      rw [ih fun z hz hpz => hf z (List.mem_cons_of_mem x hz) hpz]

theorem updateFirst_eq_self {p : α → Bool} {f : α → α} {l : List α} {u : α}
    (h : l.find? p = some u) (hu : f u = u) : updateFirst p f l = l := by
  induction l with
  | nil => simp at h
  | cons x xs ih =>
    by_cases hp : p x
    · rw [List.find?_cons_of_pos _ hp] at h
      obtain rfl : x = u := by injection h
      simp [updateFirst, if_pos hp, hu]
    · rw [List.find?_cons_of_neg _ hp] at h
      simp [updateFirst, if_neg hp, ih h]

theorem length_updateFirst {p : α → Bool} {f : α → α} (l : List α) :
    (updateFirst p f l).length = l.length := by
  induction l with
  | nil => rfl
  | cons x xs ih =>
    by_cases hp : p x
    · simp [updateFirst, if_pos hp]
    · simp [updateFirst, if_neg hp, ih]

theorem eraseFirstP_sublist (p : α → Bool) (l : List α) : (eraseFirstP p l).Sublist l := by
  induction l with
  | nil => exact List.Sublist.refl _
  | cons x xs ih =>
    by_cases hp : p x
    · rw [eraseFirstP, if_pos hp]
      exact List.sublist_cons_self x xs
    · rw [eraseFirstP, if_neg hp]
      exact ih.cons₂ x

theorem mem_eraseFirstP_of_not {p : α → Bool} {l : List α} {y : α}
    (hy : y ∈ l) (hp : p y = false) : y ∈ eraseFirstP p l := by
  induction l with
  | nil => simp at hy
  | cons x xs ih =>
    rcases List.mem_cons.mp hy with rfl | hy
    · simp [eraseFirstP, hp]
    · by_cases hx : p x
      · simpa [eraseFirstP, if_pos hx] using hy
      · simpa [eraseFirstP, if_neg hx] using Or.inr (ih hy)

theorem length_eraseFirstP {p : α → Bool} {l : List α} {u : α}
    (h : l.find? p = some u) : (eraseFirstP p l).length + 1 = l.length := by
  induction l with
  | nil => simp at h
  | cons x xs ih =>
    by_cases hp : p x
    · simp [eraseFirstP, if_pos hp]
    · rw [List.find?_cons_of_neg _ hp] at h
      simp [eraseFirstP, if_neg hp, ih h]

theorem mem_dedupFirst {l : List Int} {y : Int} : y ∈ dedupFirst l ↔ y ∈ l := by
  induction l using dedupFirst.induct with
  | case1 => simp [dedupFirst]
  | case2 x xs ih =>
    rw [dedupFirst]
    by_cases hyx : y = x
    · simp [hyx]
    · simp only [List.mem_cons, hyx, false_or, ih, List.mem_filter]
      constructor
      · exact fun h => h.1
      · exact fun h => ⟨h, by simpa using hyx⟩

theorem nodup_dedupFirst (l : List Int) : (dedupFirst l).Nodup := by
  induction l using dedupFirst.induct with
  | case1 => simp [dedupFirst]
  | case2 x xs ih =>
    rw [dedupFirst]
    refine List.Nodup.cons (fun hx => ?_) ih
    have := List.mem_filter.mp (mem_dedupFirst.mp hx)
    simp at this

/-! Injectivity of the decimal rendering `Nat.repr`, needed to reason about
the string ids produced by the `length + 1` scheme. -/

theorem charVal_digitChar : ∀ d < 10, charVal (Nat.digitChar d) = d := by decide

theorem toDigitsCore_eq_myDigits :
    ∀ (fuel n : ℕ) (ds : List Char), n < fuel →
      Nat.toDigitsCore 10 fuel n ds = myDigits n ++ ds := by
  intro fuel
  induction fuel with
  | zero => exact fun n ds h => absurd h (Nat.not_lt_zero n)
  | succ fuel ih =>
    intro n ds h
    by_cases h10 : n / 10 = 0
    · rw [Nat.toDigitsCore, if_pos h10, myDigits, if_pos h10, List.singleton_append]
    · have hdiv : n / 10 < n := Nat.div_lt_self (Nat.pos_of_ne_zero (by omega)) (by norm_num)
      rw [Nat.toDigitsCore, if_neg h10, ih (n / 10) _ (by omega)]
      conv_rhs => rw [myDigits, if_neg h10]
      rw [List.append_assoc, List.singleton_append]

theorem toDigits_eq_myDigits (n : ℕ) : Nat.toDigits 10 n = myDigits n := by
  rw [Nat.toDigits, toDigitsCore_eq_myDigits (n + 1) n [] (Nat.lt_succ_self n), List.append_nil]

theorem digitsVal_append_singleton (l : List Char) (c : Char) :
    digitsVal (l ++ [c]) = 10 * digitsVal l + charVal c := by
  simp [digitsVal, List.foldl_append]

theorem digitsVal_myDigits (n : ℕ) : digitsVal (myDigits n) = n := by
  induction n using Nat.strong_induction_on with
  | _ n ih =>
    rw [myDigits]
    by_cases h10 : n / 10 = 0
    · rw [if_pos h10]
      have hn : n % 10 = n := Nat.mod_eq_of_lt (by omega)
      have hv := charVal_digitChar (n % 10) (Nat.mod_lt n (by norm_num) |>.trans_le (by omega))
      simp only [digitsVal, List.foldl_cons, List.foldl_nil, Nat.mul_zero, Nat.zero_add]
      rw [charVal_digitChar (n % 10) (by omega), hn]
    · have hdiv : n / 10 < n := Nat.div_lt_self (Nat.pos_of_ne_zero (by omega)) (by norm_num)
      rw [if_neg h10, digitsVal_append_singleton, ih (n / 10) hdiv,
        charVal_digitChar (n % 10) (by omega)]
      omega

theorem repr_inj {m n : ℕ} (h : Nat.repr m = Nat.repr n) : m = n := by
  have h2 : Nat.toDigits 10 m = Nat.toDigits 10 n := congrArg String.data h
  have h3 := congrArg digitsVal h2
  rwa [toDigits_eq_myDigits, toDigits_eq_myDigits, digitsVal_myDigits, digitsVal_myDigits] at h3

theorem repr_succ_not_mem (n : ℕ) :
    Nat.repr (n + 1) ∉ (List.range n).map (fun i => Nat.repr (i + 1)) := by
  intro h
  rcases List.mem_map.mp h with ⟨i, hi, hrepr⟩
  have hin := List.mem_range.mp hi
  have := repr_inj hrepr
  omega

/-! Case-split equations for the store operations. -/

theorem addToFavorites_of_none {db : DB} {userId movieId : String}
    (h : db.users.find? (fun u => u.id == userId) = none) :
    addToFavorites db userId movieId = (db, false) := by
  unfold addToFavorites; rw [h]

theorem addToFavorites_of_mem {db : DB} {userId movieId : String} {u : User}
    (h : db.users.find? (fun u => u.id == userId) = some u)
    (hc : u.favorites.contains movieId = true) :
    addToFavorites db userId movieId = (db, false) := by
  simp only [addToFavorites, h, hc]; rfl

theorem addToFavorites_of_not_mem {db : DB} {userId movieId : String} {u : User}
    (h : db.users.find? (fun u => u.id == userId) = some u)
    (hc : u.favorites.contains movieId = false) :
    addToFavorites db userId movieId =
      ({ db with
          users := updateFirst (fun x => x.id == userId) (fun x => favAdded x movieId) db.users },
        true) := by
  simp only [addToFavorites, h, hc]; rfl

theorem removeFromFavorites_of_none {db : DB} {userId movieId : String}
    (h : db.users.find? (fun u => u.id == userId) = none) :
    removeFromFavorites db userId movieId = (db, false) := by
  unfold removeFromFavorites; rw [h]

theorem removeFromFavorites_of_some {db : DB} {userId movieId : String} {u : User}
    (h : db.users.find? (fun u => u.id == userId) = some u) :
    removeFromFavorites db userId movieId =
      ({ db with
          users := updateFirst (fun x => x.id == userId) (fun x => favRemoved x movieId) db.users },
        true) := by
  unfold removeFromFavorites; rw [h]

theorem addRating_of_none {db : DB} {movieId userId : String} {r : ℚ} {rev : Option String}
    (h : db.movies.find? (fun m => m.id == movieId) = none) :
    addRating db movieId userId r rev = (db, none) := by
  unfold addRating; rw [h]

theorem addRating_of_some {db : DB} {movieId userId : String} {r : ℚ} {rev : Option String}
    {m : Movie} (h : db.movies.find? (fun m => m.id == movieId) = some m) :
    addRating db movieId userId r rev =
      ({ db with
          movies := updateFirst (fun x => x.id == movieId)
            (fun _ => ratedMovie m userId r rev) db.movies },
        some (ratedMovie m userId r rev)) := by
  unfold addRating; rw [h]

theorem updateMovie_of_none {db : DB} {id : String} {upd : MovieUpdates}
    (h : db.movies.find? (fun m => m.id == id) = none) :
    updateMovie db id upd = (db, none) := by
  unfold updateMovie; rw [h]

theorem updateMovie_of_some {db : DB} {id : String} {upd : MovieUpdates} {m : Movie}
    (h : db.movies.find? (fun m => m.id == id) = some m) :
    updateMovie db id upd =
      ({ db with
          movies := updateFirst (fun x => x.id == id) (fun x => applyUpdates x upd) db.movies },
        some (applyUpdates m upd)) := by
  unfold updateMovie; rw [h]

theorem deleteMovie_of_none {db : DB} {id : String}
    (h : db.movies.find? (fun m => m.id == id) = none) :
    deleteMovie db id = (db, false) := by
  unfold deleteMovie; rw [h]

theorem deleteMovie_of_some {db : DB} {id : String} {m : Movie}
    (h : db.movies.find? (fun m => m.id == id) = some m) :
    deleteMovie db id =
      ({ movies := eraseFirstP (fun m => m.id == id) db.movies
         users := db.users.map (fun u => favRemoved u id) },
        true) := by
  unfold deleteMovie; rw [h]

theorem addMovie_movies {db : DB} {f : NewMovieFields} :
    (addMovie db f).1.movies = db.movies ++ [(addMovie db f).2] := rfl

theorem addToFavorites_movies {db : DB} {userId movieId : String} :
    (addToFavorites db userId movieId).1.movies = db.movies := by
  cases h : db.users.find? (fun u => u.id == userId) with
  | none => rw [addToFavorites_of_none h]
  | some u =>
    cases hc : u.favorites.contains movieId with
    | true => rw [addToFavorites_of_mem h hc]
    | false => rw [addToFavorites_of_not_mem h hc]

theorem removeFromFavorites_movies {db : DB} {userId movieId : String} :
    (removeFromFavorites db userId movieId).1.movies = db.movies := by
  cases h : db.users.find? (fun u => u.id == userId) with
  | none => rw [removeFromFavorites_of_none h]
  | some u => rw [removeFromFavorites_of_some h]

theorem addUser_movies {db : DB} {f : NewUserFields} {now : String} :
    (addUser db f now).1.movies = db.movies := rfl

theorem addMovie_users {db : DB} {f : NewMovieFields} :
    (addMovie db f).1.users = db.users := rfl

theorem updateMovie_users {db : DB} {id : String} {upd : MovieUpdates} :
    (updateMovie db id upd).1.users = db.users := by
  cases h : db.movies.find? (fun m => m.id == id) with
  | none => rw [updateMovie_of_none h]
  | some m => rw [updateMovie_of_some h]

theorem addRating_users {db : DB} {movieId userId : String} {r : ℚ} {rev : Option String} :
    (addRating db movieId userId r rev).1.users = db.users := by
  cases h : db.movies.find? (fun m => m.id == movieId) with
  | none => rw [addRating_of_none h]
  | some m => rw [addRating_of_some h]

/-! Preservation of the aggregate-consistency invariant (claim C1). -/

theorem movieConsistent_ratedMovie (m : Movie) (uid : String) (r : ℚ) (rev : Option String) :
    movieConsistent (ratedMovie m uid r rev) := by
  refine ⟨rfl, fun _ => rfl, fun h0 => ?_⟩
  exact absurd h0 (by simp [ratedMovie])

theorem movieConsistent_applyUpdates {m : Movie} (h : movieConsistent m) (u : MovieUpdates) :
    movieConsistent (applyUpdates m u) := h

theorem consistent_step {db db' : DB} (h : Consistent db) (hs : Step db db') : Consistent db' := by
  cases hs with
  | stepAddMovie f =>
    intro m hm
    rw [addMovie_movies] at hm
    rcases List.mem_append.mp hm with hm | hm
    · exact h m hm
    · obtain rfl := List.mem_singleton.mp hm
      exact ⟨rfl, fun h0 => by simp [addMovie] at h0, fun _ => rfl⟩
  | stepAddUser f now => exact fun m hm => h m hm
  | stepAddToFavorites uid mid =>
    intro m hm
    rw [addToFavorites_movies] at hm
    exact h m hm
  | stepRemoveFromFavorites uid mid =>
    intro m hm
    rw [removeFromFavorites_movies] at hm
    exact h m hm
  | stepAddRating mid uid r rev =>
    intro x hx
    cases hf : db.movies.find? (fun m => m.id == mid) with
    | none => rw [addRating_of_none hf] at hx; exact h x hx
    | some m =>
      rw [addRating_of_some hf] at hx
      rcases mem_updateFirst hx with hx | ⟨z, hz, hpz, rfl⟩
      · exact h x hx
      · exact movieConsistent_ratedMovie m uid r rev
  | stepUpdateMovie id upd =>
    intro x hx
    cases hf : db.movies.find? (fun m => m.id == id) with
    | none => rw [updateMovie_of_none hf] at hx; exact h x hx
    | some m =>
      rw [updateMovie_of_some hf] at hx
      rcases mem_updateFirst hx with hx | ⟨z, hz, hpz, rfl⟩
      · exact h x hx
      · exact movieConsistent_applyUpdates (h z hz) upd
  | stepDeleteMovie id =>
    intro x hx
    cases hf : db.movies.find? (fun m => m.id == id) with
    | none => rw [deleteMovie_of_none hf] at hx; exact h x hx
    | some m =>
      rw [deleteMovie_of_some hf] at hx
      exact h x ((eraseFirstP_sublist _ db.movies).subset hx)

theorem consistent_initial : Consistent initialDB := by
  intro m hm
  fin_cases hm <;> exact ⟨rfl, fun h0 => absurd h0 (by decide), fun _ => rfl⟩

theorem consistent_reachable {db : DB} (h : Reachable db) : Consistent db := by
  induction h with
  | init => exact consistent_initial
  | step hr hs ih => exact consistent_step ih hs

/-! Preservation of per-movie rater uniqueness (claim C4). -/

theorem ratersNodup_ratedMovie {m : Movie} (hm : ratersNodup m) (uid : String) (r : ℚ)
    (rev : Option String) : ratersNodup (ratedMovie m uid r rev) := by
  unfold ratersNodup ratedMovie
  rw [List.map_append, List.nodup_append]
  refine ⟨hm.sublist ((List.filter_sublist _).map _), List.nodup_singleton _, ?_⟩
  intro a ha hb
  rcases List.mem_map.mp ha with ⟨rr, hrr, rfl⟩
  have hne : rr.userId ≠ uid := by simpa using (List.mem_filter.mp hrr).2
  have : rr.userId = uid := by simpa using hb
  exact hne this

theorem ratersNodup_step {db db' : DB} (h : ∀ m ∈ db.movies, ratersNodup m)
    (hs : Step db db') : ∀ m ∈ db'.movies, ratersNodup m := by
  cases hs with
  | stepAddMovie f =>
    intro m hm
    rw [addMovie_movies] at hm
    rcases List.mem_append.mp hm with hm | hm
    · exact h m hm
    · obtain rfl := List.mem_singleton.mp hm
      exact List.nodup_nil
  | stepAddUser f now => exact fun m hm => h m hm
  | stepAddToFavorites uid mid =>
    intro m hm
    rw [addToFavorites_movies] at hm
    exact h m hm
  | stepRemoveFromFavorites uid mid =>
    intro m hm
    rw [removeFromFavorites_movies] at hm
    exact h m hm
  | stepAddRating mid uid r rev =>
    intro x hx
    cases hf : db.movies.find? (fun m => m.id == mid) with
    | none => rw [addRating_of_none hf] at hx; exact h x hx
    | some m =>
      rw [addRating_of_some hf] at hx
      rcases mem_updateFirst hx with hx | ⟨z, hz, hpz, rfl⟩
      · exact h x hx
      · exact ratersNodup_ratedMovie (h m (List.mem_of_find?_eq_some hf)) uid r rev
  | stepUpdateMovie id upd =>
    intro x hx
    cases hf : db.movies.find? (fun m => m.id == id) with
    | none => rw [updateMovie_of_none hf] at hx; exact h x hx
    | some m =>
      rw [updateMovie_of_some hf] at hx
      rcases mem_updateFirst hx with hx | ⟨z, hz, hpz, rfl⟩
      · exact h x hx
      · exact h z hz
  | stepDeleteMovie id =>
    intro x hx
    cases hf : db.movies.find? (fun m => m.id == id) with
    | none => rw [deleteMovie_of_none hf] at hx; exact h x hx
    | some m =>
      rw [deleteMovie_of_some hf] at hx
      exact h x ((eraseFirstP_sublist _ db.movies).subset hx)

theorem ratersNodup_reachable {db : DB} (h : Reachable db) : ∀ m ∈ db.movies, ratersNodup m := by
  induction h with
  | init => intro m hm; fin_cases hm <;> exact List.nodup_nil
  | step hr hs ih => exact ratersNodup_step ih hs

/-! Preservation of favorite-id validity under guarded reachability (claim C3). -/

theorem map_id_addRating {db : DB} {movieId userId : String} {r : ℚ} {rev : Option String} :
    (addRating db movieId userId r rev).1.movies.map (fun m => m.id) =
      db.movies.map (fun m => m.id) := by
  cases hf : db.movies.find? (fun m => m.id == movieId) with
  | none => rw [addRating_of_none hf]
  | some m =>
    rw [addRating_of_some hf]
    apply map_updateFirst
    intro x _ hpx
    have h1 : m.id = movieId := by simpa using List.find?_some hf
    have h2 : x.id = movieId := by simpa using hpx
    show m.id = x.id
    rw [h1, h2]

theorem map_id_updateMovie {db : DB} {id : String} {upd : MovieUpdates} :
    (updateMovie db id upd).1.movies.map (fun m => m.id) = db.movies.map (fun m => m.id) := by
  cases hf : db.movies.find? (fun m => m.id == id) with
  | none => rw [updateMovie_of_none hf]
  | some m =>
    rw [updateMovie_of_some hf]
    exact map_updateFirst _ _ (fun x _ _ => rfl)

theorem exists_id_of_map_eq {l1 l2 : List Movie} {fid : String}
    (hmap : l2.map (fun m => m.id) = l1.map (fun m => m.id))
    (h : ∃ m ∈ l1, m.id = fid) : ∃ m ∈ l2, m.id = fid := by
  rcases h with ⟨m, hm, hid⟩
  have hmem : fid ∈ l2.map (fun m => m.id) := by
    rw [hmap]
    exact List.mem_map.mpr ⟨m, hm, hid⟩
  rcases List.mem_map.mp hmem with ⟨m2, hm2, hid2⟩
  exact ⟨m2, hm2, hid2⟩

theorem favsValid_stepChecked {db db' : DB} (h : FavsValid db) (hs : StepChecked db db') :
    FavsValid db' := by
  cases hs with
  | stepAddMovie f =>
    intro u hu fid hfid
    rcases h u hu fid hfid with ⟨m, hm, hid⟩
    exact ⟨m, by rw [addMovie_movies]; exact List.mem_append_left _ hm, hid⟩
  | stepAddUser f now =>
    intro u hu fid hfid
    rcases List.mem_append.mp hu with hu | hu
    · exact h u hu fid hfid
    · obtain rfl := List.mem_singleton.mp hu
      simp [addUser] at hfid
  | stepAddToFavorites uid mid hm =>
    cases hfind : db.users.find? (fun u => u.id == uid) with
    | none => rw [addToFavorites_of_none hfind]; exact h
    | some u0 =>
      cases hc : u0.favorites.contains mid with
      | true => rw [addToFavorites_of_mem hfind hc]; exact h
      | false =>
        rw [addToFavorites_of_not_mem hfind hc]
        intro u hu fid hfid
        rcases mem_updateFirst hu with hu | ⟨z, hz, _, rfl⟩
        · exact h u hu fid hfid
        · rcases List.mem_append.mp hfid with hfid | hfid
          · exact h z hz fid hfid
          · obtain rfl := List.mem_singleton.mp hfid
            exact hm
  | stepRemoveFromFavorites uid mid =>
    cases hfind : db.users.find? (fun u => u.id == uid) with
    | none => rw [removeFromFavorites_of_none hfind]; exact h
    | some u0 =>
      rw [removeFromFavorites_of_some hfind]
      intro u hu fid hfid
      rcases mem_updateFirst hu with hu | ⟨z, hz, _, rfl⟩
      · exact h u hu fid hfid
      · exact h z hz fid (List.mem_of_mem_filter hfid)
  | stepAddRating mid uid r rev =>
    intro u hu fid hfid
    rw [addRating_users] at hu
    exact exists_id_of_map_eq map_id_addRating (h u hu fid hfid)
  | stepUpdateMovie id upd =>
    intro u hu fid hfid
    rw [updateMovie_users] at hu
    exact exists_id_of_map_eq map_id_updateMovie (h u hu fid hfid)
  | stepDeleteMovie id =>
    cases hfind : db.movies.find? (fun m => m.id == id) with
    | none => rw [deleteMovie_of_none hfind]; exact h
    | some m0 =>
      rw [deleteMovie_of_some hfind]
      intro u hu fid hfid
      rcases List.mem_map.mp hu with ⟨z, hz, rfl⟩
      have hmem := List.mem_filter.mp hfid
      have hne : fid ≠ id := by simpa using hmem.2
      rcases h z hz fid hmem.1 with ⟨m, hm, hid⟩
      refine ⟨m, mem_eraseFirstP_of_not hm ?_, hid⟩
      simp [hid, hne]

theorem favsValid_initial : FavsValid initialDB := by
  intro u hu fid hfid
  fin_cases hu <;> simp [adminUser, demoUser] at hfid

theorem favsValid_reachableChecked {db : DB} (h : ReachableChecked db) : FavsValid db := by
  induction h with
  | init => exact favsValid_initial
  | step hr hs ih => exact favsValid_stepChecked ih hs

/-! Preservation of the sequential-id shape when nothing is deleted (claim C2). -/

theorem idsSeq_of_map_eq {db db' : DB}
    (hmap : db'.movies.map (fun m => m.id) = db.movies.map (fun m => m.id))
    (h : IdsSeq db) : IdsSeq db' := by
  have hlen : db'.movies.length = db.movies.length := by
    have := congrArg List.length hmap
    simpa using this
  unfold IdsSeq
  rw [hmap, hlen]
  exact h

theorem idsSeq_stepNoDelete {db db' : DB} (h : IdsSeq db) (hs : StepNoDelete db db') :
    IdsSeq db' := by
  cases hs with
  | stepAddMovie f =>
    unfold IdsSeq
    rw [addMovie_movies, List.map_append, List.length_append, h]
    simp [addMovie, List.range_succ]
  | stepAddUser f now => exact idsSeq_of_map_eq (by rw [addUser_movies]) h
  | stepAddToFavorites uid mid => exact idsSeq_of_map_eq (by rw [addToFavorites_movies]) h
  | stepRemoveFromFavorites uid mid =>
    exact idsSeq_of_map_eq (by rw [removeFromFavorites_movies]) h
  | stepAddRating mid uid r rev => exact idsSeq_of_map_eq map_id_addRating h
  | stepUpdateMovie id upd => exact idsSeq_of_map_eq map_id_updateMovie h

theorem idsSeq_initial : IdsSeq initialDB := by
  unfold IdsSeq
  rfl

theorem idsSeq_reachableNoDelete {db : DB} (h : ReachableNoDelete db) : IdsSeq db := by
  induction h with
  | init => exact idsSeq_initial
  | step hr hs ih => exact idsSeq_stepNoDelete ih hs

theorem addMovie_id_fresh {db : DB} (h : IdsSeq db) (f : NewMovieFields) :
    (addMovie db f).2.id ∉ db.movies.map (fun m => m.id) := by
  intro hmem
  rw [h] at hmem
  exact repr_succ_not_mem db.movies.length hmem

/-! Claim C1. -/

/-- C1: in every reachable store state, every movie's `totalRatings` equals the
length of its `ratings` sequence, `averageRating` is the arithmetic mean of the
rating values when `totalRatings > 0` and is `0` when `totalRatings = 0`, and
every store operation preserves this consistency. -/
theorem claim1_aggregates_consistent {db : DB} (h : Reachable db) :
    Consistent db ∧ ∀ db2, Step db db2 → Consistent db2 :=
  ⟨consistent_reachable h, fun _ hs => consistent_step (consistent_reachable h) hs⟩

/-- Witness for C1: the seed state is consistent and stays so after a concrete
rating call. -/
theorem claim1_witness :
    movieConsistent matrixMovie ∧ Consistent (addRating initialDB "1" "u1" 4 none).1 :=
  ⟨(claim1_aggregates_consistent Reachable.init).1 matrixMovie (by decide),
   (claim1_aggregates_consistent Reachable.init).2 _ (Step.stepAddRating initialDB "1" "u1" 4 none)⟩

/-! Claim C2. -/

/-- C2 fails as stated: deleting movie `"1"` from the seed state is reachable,
and `addMovie` then assigns id `"6"`, which an existing movie already carries. -/
theorem claim2_counterexample :
    Reachable (deleteMovie initialDB "1").1 ∧
    (addMovie (deleteMovie initialDB "1").1 sampleFields).2.id ∈
      (deleteMovie initialDB "1").1.movies.map (fun m => m.id) :=
  ⟨Reachable.step Reachable.init (Step.stepDeleteMovie initialDB "1"), by decide⟩

/-- C2 (amended): `addMovie` assigns the id `(count + 1).toString()`,
initializes `ratings = []`, `averageRating = 0`, `totalRatings = 0`, and
appends the new movie to the end of the collection; the assigned id differs
from every existing id in every state reachable without deletions (after a
deletion it can collide with an existing id). -/
theorem claim2_create_movie {db : DB} (h : ReachableNoDelete db) (f : NewMovieFields) :
    (addMovie db f).2.id = Nat.repr (db.movies.length + 1) ∧
    (addMovie db f).2.ratings = [] ∧
    (addMovie db f).2.averageRating = 0 ∧
    (addMovie db f).2.totalRatings = 0 ∧
    (addMovie db f).1.movies = db.movies ++ [(addMovie db f).2] ∧
    (addMovie db f).2.id ∉ db.movies.map (fun m => m.id) :=
  ⟨rfl, rfl, rfl, rfl, rfl, addMovie_id_fresh (idsSeq_reachableNoDelete h) f⟩

/-- Witness for C2 at the seed state. -/
theorem claim2_witness :
    (addMovie initialDB sampleFields).2.id = Nat.repr (initialDB.movies.length + 1) ∧
    (addMovie initialDB sampleFields).2.ratings = [] ∧
    (addMovie initialDB sampleFields).2.averageRating = 0 ∧
    (addMovie initialDB sampleFields).2.totalRatings = 0 ∧
    (addMovie initialDB sampleFields).1.movies =
      initialDB.movies ++ [(addMovie initialDB sampleFields).2] ∧
    (addMovie initialDB sampleFields).2.id ∉ initialDB.movies.map (fun m => m.id) :=
  claim2_create_movie ReachableNoDelete.init sampleFields

/-! Claim C3. -/

/-- C3 fails as stated: `addToFavorites` performs no existence check, so a
reachable state can hold a favorited id (`"999"`) with no matching movie. -/
theorem claim3_counterexample :
    Reachable (addToFavorites initialDB "1" "999").1 ∧
    isMovieFavorited (addToFavorites initialDB "1" "999").1 "1" "999" = true ∧
    getMovieById (addToFavorites initialDB "1" "999").1 "999" = none :=
  ⟨Reachable.step Reachable.init (Step.stepAddToFavorites initialDB "1" "999"),
    by decide, by decide⟩

/-- C3 (amended): in every state reachable when each `addFavorite` call passes
the id of a movie existing at call time, every user's favorites contain only
ids of movies present in the catalog — all other operations, including
`deleteMovie`'s cascade, preserve the property unconditionally, while an
unvalidated `addFavorite` can break it. -/
theorem claim3_favorites_valid {db : DB} (h : ReachableChecked db) :
    ∀ u ∈ db.users, ∀ fid ∈ u.favorites, ∃ m ∈ db.movies, m.id = fid :=
  favsValid_reachableChecked h

/-- Witness for C3: after the admin validly favorites movie `"1"`, that
favorite resolves to a movie in the catalog. -/
theorem claim3_witness :
    ∃ m ∈ favDB.movies, m.id = "1" :=
  claim3_favorites_valid
    (ReachableChecked.step ReachableChecked.init
      (StepChecked.stepAddToFavorites initialDB "1" "1" (by decide)))
    (favAdded adminUser "1") (by decide) "1" (by decide)

/-! Claim C4. -/

theorem ratedMovie_filter_self (m : Movie) (uid : String) (r : ℚ) (rev : Option String) :
    ((ratedMovie m uid r rev).ratings.filter (fun x => x.userId == uid)).length = 1 := by
  show ((m.ratings.filter (fun x => x.userId != uid) ++
      [({ userId := uid, rating := r, review := rev } : Rating)]).filter
        (fun x => x.userId == uid)).length = 1
  rw [List.filter_append]
  have h1 : (m.ratings.filter (fun x => x.userId != uid)).filter
      (fun x => x.userId == uid) = [] := by
    rw [List.filter_eq_nil_iff]
    intro a ha
    have h2 := (List.mem_filter.mp ha).2
    simpa using h2
  rw [h1]
  simp

theorem count_raters_le_one {m : Movie} (hnodup : ratersNodup m) (uid : String) :
    (m.ratings.filter (fun x => x.userId == uid)).length ≤ 1 := by
  rw [← List.countP_eq_length_filter]
  have hc : List.countP (fun x => x.userId == uid) m.ratings =
      List.count uid (m.ratings.map (fun x => x.userId)) := by
    rw [List.count_eq_countP, List.countP_map]
    rfl
  rw [hc]
  exact List.nodup_iff_count_le_one.mp hnodup uid

/-- C4: `addRating` returns `null` exactly when the movie id is unknown;
otherwise it removes any prior rating by the same user, appends the new one,
recomputes the aggregates, and leaves exactly one entry for that user; and in
every reachable state each movie holds at most one rating per user, so
`totalRatings` never exceeds the number of distinct raters. -/
theorem claim4_add_or_replace_rating {db : DB} (h : Reachable db) (movieId userId : String)
    (r : ℚ) (rev : Option String) :
    ((addRating db movieId userId r rev).2 = none ↔ getMovieById db movieId = none) ∧
    (∀ m2, (addRating db movieId userId r rev).2 = some m2 →
      ∃ m, getMovieById db movieId = some m ∧
        m2.ratings = m.ratings.filter (fun x => x.userId != userId) ++
          [{ userId := userId, rating := r, review := rev }] ∧
        m2.totalRatings = m2.ratings.length ∧
        m2.averageRating = ratingSum m2.ratings / (m2.ratings.length : ℚ) ∧
        (m2.ratings.filter (fun x => x.userId == userId)).length = 1) ∧
    (∀ m ∈ db.movies, ∀ uid : String,
      (m.ratings.filter (fun x => x.userId == uid)).length ≤ 1 ∧
      m.totalRatings ≤ ((m.ratings.map (fun x => x.userId)).dedup).length) := by
  refine ⟨?_, ?_, ?_⟩
  · cases hf : db.movies.find? (fun m => m.id == movieId) with
    | none =>
      rw [addRating_of_none hf]
      exact ⟨fun _ => hf, fun _ => rfl⟩
    | some m =>
      rw [addRating_of_some hf]
      constructor
      · intro hcontra
        exact absurd hcontra (by simp)
      · intro hcontra
        rw [show getMovieById db movieId = some m from hf] at hcontra
        exact absurd hcontra (by simp)
  · intro m2 hm2
    cases hf : db.movies.find? (fun m => m.id == movieId) with
    | none =>
      rw [addRating_of_none hf] at hm2
      exact absurd hm2 (by simp)
    | some m =>
      rw [addRating_of_some hf] at hm2
      obtain rfl : ratedMovie m userId r rev = m2 := by injection hm2
      exact ⟨m, hf, rfl, rfl, rfl, ratedMovie_filter_self m userId r rev⟩
  · intro m hm uid
    have hnodup := ratersNodup_reachable h m hm
    have hcons := consistent_reachable h m hm
    refine ⟨count_raters_le_one hnodup uid, ?_⟩
    rw [List.Nodup.dedup hnodup, List.length_map, ← hcons.1]

/-- Witness for C4: a concrete rating call on the seed state replaces and
counts as specified. -/
theorem claim4_witness :
    ((addRating initialDB "1" "u1" 4 none).2 = none ↔ getMovieById initialDB "1" = none) ∧
    ((matrixMovie.ratings.filter (fun x => x.userId == "u1")).length ≤ 1 ∧
      matrixMovie.totalRatings ≤
        ((matrixMovie.ratings.map (fun x => x.userId)).dedup).length) :=
  ⟨(claim4_add_or_replace_rating Reachable.init "1" "u1" 4 none).1,
   (claim4_add_or_replace_rating Reachable.init "1" "u1" 4 none).2.2 matrixMovie (by decide) "u1"⟩

/-! Claim C5. -/

/-- C5: `deleteMovie` returns false and changes nothing on an unknown id; on a
known id it reports success, removes exactly one movie (the matching one) from
the catalog, and afterwards `isMovieFavorited u id` is false for every user. -/
theorem claim5_delete_movie (db : DB) (id : String) :
    (getMovieById db id = none → deleteMovie db id = (db, false)) ∧
    (∀ m0, getMovieById db id = some m0 →
      (deleteMovie db id).2 = true ∧
      (deleteMovie db id).1.movies.length + 1 = db.movies.length ∧
      ((deleteMovie db id).1.movies).Sublist db.movies ∧
      (∀ m ∈ db.movies, m.id ≠ id → m ∈ (deleteMovie db id).1.movies) ∧
      (∀ userId, isMovieFavorited (deleteMovie db id).1 userId id = false)) := by
  constructor
  · intro hnone
    exact deleteMovie_of_none hnone
  · intro m0 hsome
    have hf : db.movies.find? (fun m => m.id == id) = some m0 := hsome
    rw [deleteMovie_of_some hf]
    refine ⟨rfl, length_eraseFirstP hf, eraseFirstP_sublist _ db.movies, ?_, ?_⟩
    · intro m hm hne
      exact mem_eraseFirstP_of_not hm (by simpa using hne)
    · intro userId
      show isMovieFavorited
        ⟨eraseFirstP (fun m => m.id == id) db.movies,
          db.users.map (fun u => favRemoved u id)⟩ userId id = false
      unfold isMovieFavorited
      rw [show (⟨eraseFirstP (fun m => m.id == id) db.movies,
          db.users.map (fun u => favRemoved u id)⟩ : DB).users =
        db.users.map (fun u => favRemoved u id) from rfl]
      rw [List.find?_map]
      cases hu : db.users.find? ((fun u => u.id == userId) ∘ (fun u => favRemoved u id)) with
      | none => rfl
      | some u =>
        show (favRemoved u id).favorites.contains id = false
        unfold favRemoved
        simp

/-- Witness for C5: deleting an unknown id is a no-op, and after deleting
movie `"1"` the demo user no longer has it favorited. -/
theorem claim5_witness :
    deleteMovie initialDB "999" = (initialDB, false) ∧
    isMovieFavorited (deleteMovie initialDB "1").1 "2" "1" = false :=
  ⟨(claim5_delete_movie initialDB "999").1 (by decide),
   (((claim5_delete_movie initialDB "1").2 matrixMovie (by decide)).2.2.2.2) "2"⟩

/-! Claim C6. -/

/-- C6: every operation that reports failure (a `null`/false result for an
unknown id, or `addToFavorites` on an already-favorited movie) leaves the
whole store state unchanged. -/
theorem claim6_failure_no_mutation (db : DB) (movieId userId id : String) (r : ℚ)
    (rev : Option String) (upd : MovieUpdates) :
    ((addRating db movieId userId r rev).2 = none →
      (addRating db movieId userId r rev).1 = db) ∧
    ((addToFavorites db userId movieId).2 = false →
      (addToFavorites db userId movieId).1 = db) ∧
    ((removeFromFavorites db userId movieId).2 = false →
      (removeFromFavorites db userId movieId).1 = db) ∧
    ((updateMovie db id upd).2 = none → (updateMovie db id upd).1 = db) ∧
    ((deleteMovie db id).2 = false → (deleteMovie db id).1 = db) := by
  refine ⟨?_, ?_, ?_, ?_, ?_⟩
  · intro hfail
    cases hf : db.movies.find? (fun m => m.id == movieId) with
    | none => rw [addRating_of_none hf]
    | some m => rw [addRating_of_some hf] at hfail; exact absurd hfail (by simp)
  · intro hfail
    cases hf : db.users.find? (fun u => u.id == userId) with
    | none => rw [addToFavorites_of_none hf]
    | some u =>
      cases hc : u.favorites.contains movieId with
      | true => rw [addToFavorites_of_mem hf hc]
      | false => rw [addToFavorites_of_not_mem hf hc] at hfail; exact absurd hfail (by simp)
  · intro hfail
    cases hf : db.users.find? (fun u => u.id == userId) with
    | none => rw [removeFromFavorites_of_none hf]
    | some u => rw [removeFromFavorites_of_some hf] at hfail; exact absurd hfail (by simp)
  · intro hfail
    cases hf : db.movies.find? (fun m => m.id == id) with
    | none => rw [updateMovie_of_none hf]
    | some m => rw [updateMovie_of_some hf] at hfail; exact absurd hfail (by simp)
  · intro hfail
    cases hf : db.movies.find? (fun m => m.id == id) with
    | none => rw [deleteMovie_of_none hf]
    | some m => rw [deleteMovie_of_some hf] at hfail; exact absurd hfail (by simp)

/-- Witness for C6: concrete failing calls on the seed state mutate nothing. -/
theorem claim6_witness :
    (addRating initialDB "999" "u1" 5 none).1 = initialDB ∧
    (addToFavorites initialDB "999" "1").1 = initialDB ∧
    (removeFromFavorites initialDB "999" "1").1 = initialDB ∧
    (updateMovie initialDB "999" ⟨none, none, none, none⟩).1 = initialDB ∧
    (deleteMovie initialDB "999").1 = initialDB := by
  have h := claim6_failure_no_mutation initialDB "999" "999" "999" 5 none ⟨none, none, none, none⟩
  exact ⟨h.1 (by decide), h.2.1 (by decide), h.2.2.1 (by decide), h.2.2.2.1 (by decide),
    h.2.2.2.2 (by decide)⟩

/-! Claim C7. -/

theorem isMovieFavorited_of_none {db : DB} {userId movieId : String}
    (h : db.users.find? (fun u => u.id == userId) = none) :
    isMovieFavorited db userId movieId = false := by
  unfold isMovieFavorited
  rw [h]

theorem isMovieFavorited_of_some {db : DB} {userId movieId : String} {u : User}
    (h : db.users.find? (fun u => u.id == userId) = some u) :
    isMovieFavorited db userId movieId = u.favorites.contains movieId := by
  unfold isMovieFavorited
  rw [h]

theorem find?_users_addToFavorites {db : DB} {userId movieId : String} {u : User}
    (hfind : db.users.find? (fun x => x.id == userId) = some u)
    (hc : u.favorites.contains movieId = false) :
    (addToFavorites db userId movieId).1.users.find? (fun x => x.id == userId) =
      some (favAdded u movieId) := by
  rw [addToFavorites_of_not_mem hfind hc]
  show (updateFirst (fun x => x.id == userId) (fun x => favAdded x movieId)
    db.users).find? (fun x => x.id == userId) = some (favAdded u movieId)
  rw [find?_updateFirst (fun x => x.id == userId) (fun x => favAdded x movieId)
    db.users (fun x hx => hx), hfind]
  rfl

theorem find?_users_removeFromFavorites {db : DB} {userId movieId : String} {u : User}
    (hfind : db.users.find? (fun x => x.id == userId) = some u) :
    (removeFromFavorites db userId movieId).1.users.find? (fun x => x.id == userId) =
      some (favRemoved u movieId) := by
  rw [removeFromFavorites_of_some hfind]
  show (updateFirst (fun x => x.id == userId) (fun x => favRemoved x movieId)
    db.users).find? (fun x => x.id == userId) = some (favRemoved u movieId)
  rw [find?_updateFirst (fun x => x.id == userId) (fun x => favRemoved x movieId)
    db.users (fun x hx => hx), hfind]
  rfl

/-- C7: for an existing user, `addToFavorites` then `isMovieFavorited` yields
true; `removeFromFavorites` then `isMovieFavorited` yields false (for any
user); removing a non-favorited id is a state no-op that still returns true;
adding an already-favorited id returns false; and `removeFromFavorites`
returns false exactly when the user is unknown. -/
theorem claim7_favorites_algebra (db : DB) (userId movieId : String) :
    ((db.users.find? (fun u => u.id == userId)).isSome = true →
      isMovieFavorited (addToFavorites db userId movieId).1 userId movieId = true) ∧
    (isMovieFavorited (removeFromFavorites db userId movieId).1 userId movieId = false) ∧
    (∀ u, db.users.find? (fun u => u.id == userId) = some u →
      u.favorites.contains movieId = false →
      removeFromFavorites db userId movieId = (db, true)) ∧
    (∀ u, db.users.find? (fun u => u.id == userId) = some u →
      u.favorites.contains movieId = true →
      addToFavorites db userId movieId = (db, false)) ∧
    ((removeFromFavorites db userId movieId).2 = false ↔
      db.users.find? (fun u => u.id == userId) = none) := by
  refine ⟨?_, ?_, ?_, ?_, ?_⟩
  · intro hsome
    cases hfind : db.users.find? (fun u => u.id == userId) with
    | none => rw [hfind] at hsome; simp at hsome
    | some u =>
      cases hc : u.favorites.contains movieId with
      | true =>
        rw [addToFavorites_of_mem hfind hc, isMovieFavorited_of_some hfind]
        exact hc
      | false =>
        rw [isMovieFavorited_of_some (find?_users_addToFavorites hfind hc)]
        simp [favAdded]
  · cases hfind : db.users.find? (fun u => u.id == userId) with
    | none =>
      rw [removeFromFavorites_of_none hfind]
      exact isMovieFavorited_of_none hfind
    | some u =>
      rw [isMovieFavorited_of_some (find?_users_removeFromFavorites hfind)]
      simp [favRemoved]
  · intro u hfind hc
    have hnotmem : movieId ∉ u.favorites := by simpa using hc
    have hfilter : u.favorites.filter (fun i => i != movieId) = u.favorites :=
      List.filter_eq_self.mpr fun a ha => by
        simp only [bne_iff_ne, ne_eq, decide_eq_true_eq]
        intro heq
        exact hnotmem (heq ▸ ha)
    have hfu : favRemoved u movieId = u := by
      unfold favRemoved
      rw [hfilter]
    rw [removeFromFavorites_of_some hfind, updateFirst_eq_self hfind hfu]
  · intro u hfind hc
    exact addToFavorites_of_mem hfind hc
  · cases hfind : db.users.find? (fun u => u.id == userId) with
    | none => rw [removeFromFavorites_of_none hfind]; simp [hfind]
    | some u => rw [removeFromFavorites_of_some hfind]; simp [hfind]

/-- Witness for C7 on concrete states: favoriting then querying, removing then
querying, the removal no-op, the duplicate-add failure, and the unknown-user
failure. -/
theorem claim7_witness :
    isMovieFavorited (addToFavorites initialDB "1" "3").1 "1" "3" = true ∧
    isMovieFavorited (removeFromFavorites initialDB "1" "3").1 "1" "3" = false ∧
    removeFromFavorites initialDB "1" "3" = (initialDB, true) ∧
    (addToFavorites favDB "1" "1").2 = false ∧
    (removeFromFavorites initialDB "999" "1").2 = false :=
  ⟨(claim7_favorites_algebra initialDB "1" "3").1 (by decide),
   (claim7_favorites_algebra initialDB "1" "3").2.1,
   (claim7_favorites_algebra initialDB "1" "3").2.2.1 adminUser (by decide) (by decide),
   by
    have h := (claim7_favorites_algebra favDB "1" "1").2.2.2.1
      (favAdded adminUser "1") (by decide) (by decide)
    rw [h],
   (claim7_favorites_algebra initialDB "999" "1").2.2.2.2.mpr (by decide)⟩

/-! Claim C8. -/

/-- C8 fails as stated: the guard `if (!year)` also treats the integer `0` as
"no filter", so `filterMoviesByYear 0` returns the whole seed catalog even
though no movie has year `0`. -/
theorem claim8_counterexample :
    filterMoviesByYear initialDB (some 0) = initialDB.movies ∧
    initialDB.movies.filter (fun m => yearOf m.releaseDate == 0) = [] ∧
    filterMoviesByYear initialDB (some 0) ≠
      initialDB.movies.filter (fun m => yearOf m.releaseDate == 0) :=
  ⟨rfl, by decide, by decide⟩

/-- C8 (amended): `filterMoviesByYear` returns all movies for `null` and also
for the year `0` (both are falsy in the guard); for every nonzero integer year
it returns exactly the movies whose 4-digit year parsed from `releaseDate`
equals that year, in catalog order. -/
theorem claim8_filter_by_year (db : DB) (y : Int) :
    filterMoviesByYear db none = db.movies ∧
    filterMoviesByYear db (some 0) = db.movies ∧
    (y ≠ 0 →
      (filterMoviesByYear db (some y)).Sublist db.movies ∧
      ∀ m, m ∈ filterMoviesByYear db (some y) ↔
        m ∈ db.movies ∧ yearOf m.releaseDate = y) := by
  refine ⟨rfl, rfl, ?_⟩
  intro hy
  have h0 : ((y == 0) : Bool) = false := by simpa using hy
  have heq : filterMoviesByYear db (some y) =
      db.movies.filter (fun m => yearOf m.releaseDate == y) := by
    show (if y == 0 then db.movies
      else db.movies.filter (fun m => yearOf m.releaseDate == y)) =
        db.movies.filter (fun m => yearOf m.releaseDate == y)
    rw [h0]
    rfl
  rw [heq]
  refine ⟨List.filter_sublist _, ?_⟩
  intro m
  rw [List.mem_filter]
  simp

/-- Witness for C8: the nonzero year `1999` filters the seed catalog to a
subcollection. -/
theorem claim8_witness :
    filterMoviesByYear initialDB none = initialDB.movies ∧
    (filterMoviesByYear initialDB (some 1999)).Sublist initialDB.movies :=
  ⟨(claim8_filter_by_year initialDB 1999).1,
   ((claim8_filter_by_year initialDB 1999).2.2 (by decide)).1⟩

/-! Claim C9. -/

/-- C9: `getMovieYears` returns the distinct release years, strictly
descending: pairwise strictly greater, containing every movie's year, and
containing only years of movies. -/
theorem claim9_list_years (db : DB) :
    (getMovieYears db).Pairwise (fun a b => a > b) ∧
    (∀ m ∈ db.movies, yearOf m.releaseDate ∈ getMovieYears db) ∧
    (∀ y ∈ getMovieYears db, ∃ m ∈ db.movies, yearOf m.releaseDate = y) := by
  have hperm : (getMovieYears db).Perm
      (dedupFirst (db.movies.map (fun m => yearOf m.releaseDate))) :=
    List.perm_insertionSort _ _
  have hnodup : (getMovieYears db).Nodup :=
    hperm.symm.nodup (nodup_dedupFirst _)
  have hsorted : List.Sorted (fun a b => a ≥ b) (getMovieYears db) :=
    List.sorted_insertionSort _ _
  refine ⟨?_, ?_, ?_⟩
  · exact (List.Pairwise.and hsorted hnodup).imp
      (fun hab => lt_of_le_of_ne hab.1 (Ne.symm hab.2))
  · intro m hm
    have h1 : yearOf m.releaseDate ∈ db.movies.map (fun m => yearOf m.releaseDate) :=
      List.mem_map.mpr ⟨m, hm, rfl⟩
    exact hperm.mem_iff.mpr (mem_dedupFirst.mpr h1)
  · intro y hy
    have h1 := mem_dedupFirst.mp (hperm.mem_iff.mp hy)
    rcases List.mem_map.mp h1 with ⟨m, hm, hym⟩
    exact ⟨m, hm, hym⟩

/-- Witness for C9 at the seed state. -/
theorem claim9_witness :
    (getMovieYears initialDB).Pairwise (fun a b => a > b) ∧
    yearOf matrixMovie.releaseDate ∈ getMovieYears initialDB :=
  ⟨(claim9_list_years initialDB).1,
   (claim9_list_years initialDB).2.1 matrixMovie (by decide)⟩

/-! Claim C10. -/

/-- C10: `getFavoriteMovies` returns, in catalog order, exactly the catalog
movies whose id the user has favorited (dangling favorite ids are silently
dropped), and the empty sequence for an unknown user. -/
theorem claim10_favorite_movies (db : DB) (userId : String) :
    (db.users.find? (fun u => u.id == userId) = none → getFavoriteMovies db userId = []) ∧
    (getFavoriteMovies db userId).Sublist db.movies ∧
    (∀ u, db.users.find? (fun u => u.id == userId) = some u →
      ∀ m, m ∈ getFavoriteMovies db userId ↔ m ∈ db.movies ∧ m.id ∈ u.favorites) := by
  unfold getFavoriteMovies
  cases hfind : db.users.find? (fun u => u.id == userId) with
  | none =>
    refine ⟨fun _ => rfl, List.nil_sublist _, ?_⟩
    intro u hu
    cases hu
  | some u0 =>
    refine ⟨fun hc => absurd hc (by simp), List.filter_sublist _, ?_⟩
    intro u hu m
    obtain rfl : u0 = u := by injection hu
    rw [List.mem_filter]
    simp

/-- Witness for C10: the unknown user gets an empty list, and the admin's valid
favorite resolves through the membership characterization. -/
theorem claim10_witness :
    getFavoriteMovies initialDB "999" = [] ∧
    (matrixMovie ∈ getFavoriteMovies favDB "1" ↔
      matrixMovie ∈ favDB.movies ∧ matrixMovie.id ∈ (favAdded adminUser "1").favorites) :=
  ⟨(claim10_favorite_movies initialDB "999").1 (by decide),
   (claim10_favorite_movies favDB "1").2.2 (favAdded adminUser "1") (by decide) matrixMovie⟩

end MovieCatalog
